import Mathlib

/-!
Verification of the round/stage coordination core of
`hivemind_exp/trainer/hivemind_grpo_trainer.py`.

The trainer is embedded shallowly as trace-producing functions: every
externally visible action (DHT store, dataset construction, a call of
`trainer.train()`, `cleanup()`, `time.sleep`, logging, ...) is recorded
as an `Event`, and Python exceptions are modelled with `Except PyErr`.
External collaborators (the GRPO train step, dataset builders, the hub
push) are parametrized by behaviour oracles telling, per call, whether
the call succeeds or which exception it raises.  Wall-clock driven
conditions (`time.monotonic` deadlines, the throttled debug log of the
follower's fetch-failure branch) are abstracted: the coordinator loop
takes a per-iteration `timeOk` predicate standing for the
`time.monotonic() - start_time < train_timeout` check, and the throttled
debug log (visible only through wall-clock time) is elided from the
fetch-failure trace.
-/

namespace RLSwarm

/-- Python exception kinds relevant to the trainer.  `blockingIOError` and
`eofError` are the two transient classes caught by
`train_stage_and_save`; `datasetGenError` is
`datasets.exceptions.DatasetGenerationError`; `unboundLocal` is the
`UnboundLocalError` raised when `train_result` is referenced after the
retry loop exhausted without assigning it; `nameError` likewise for
`del trainer` when no stage ran; `otherError` stands for any other
exception. -/
inductive PyErr
  | blockingIOError
  | eofError
  | datasetGenError
  | unboundLocal
  | nameError
  | otherError
deriving DecidableEq, Repr

deriving instance DecidableEq for Except

/-- `MAX_TRAIN_FAILS = 5` from the source. -/
def MAX_TRAIN_FAILS : Nat := 5

/-- `CADENCE_OF_UPDATE_STEPS = 4` from the source. -/
def CADENCE_OF_UPDATE_STEPS : Nat := 4

/-- Observable actions of the trainer, in program order.  DHT writes
carry the identifying arguments; pure-local actions (logging, saving,
cleanup) are plain markers. -/
inductive Event
  | storePointer (r s : Nat)
  | storeOutputs (r s : Nat) (qhash : Nat)
  | putStageOutputs (r s : Nat)
  | storeRewards (r s : Nat) (v : Int)
  | storeLeaderboard (r s : Nat) (lb : List (String × Int))
  | logInfo
  | logWarn
  | datasetsFn (r s : Nat)
  | trainAttempt (s k : Nat)
  | cleanup
  | sleep (d : ℚ)
  | logMetrics
  | saveMetrics
  | saveState
  | saveModel
  | saveTokenizer
  | waitForEveryone
  | pushToHub
  | trainStagesCall (r s : Nat)
  | getVisibleMaddrs
deriving DecidableEq, Repr

/-- Events that are writes to the distributed store (`self.dht.store`).
`putStageOutputs` is the node-local cache write, not a store write. -/
def isStoreWrite : Event → Bool
  | .storePointer _ _ => true
  | .storeOutputs _ _ _ => true
  | .storeRewards _ _ _ => true
  | .storeLeaderboard _ _ _ => true
  | _ => false

/-- The exception classes caught by `except (BlockingIOError, EOFError)`. -/
def isTransient (e : PyErr) : Bool :=
  e = .blockingIOError || e = .eofError

/-! ### `PublishingGRPOTrainer.publish_leaderboard` -/

/-- Descending order on leaderboard entries used by
`sorted(curr_rewards.items(), key=lambda t: (t[1], t[0]), reverse=True)`:
entry `a` precedes entry `b` iff the sort key `(reward, workerKey)` of
`a` is lexicographically at least that of `b`.  The Python float reward
is modelled by `Int` (only its total order matters here). -/
def lbGe (a b : String × Int) : Prop :=
  b.2 < a.2 ∨ (a.2 = b.2 ∧ b.1 ≤ a.1)

instance : DecidableRel lbGe := fun a b => by
  unfold lbGe; infer_instance

instance : IsTotal (String × Int) lbGe where
  total a b := by
    rcases lt_trichotomy a.2 b.2 with h | h | h
    · exact Or.inr (Or.inl h)
    · rcases le_total b.1 a.1 with h1 | h1
      · exact Or.inl (Or.inr ⟨h, h1⟩)
      · exact Or.inr (Or.inr ⟨h.symm, h1⟩)
    · exact Or.inl (Or.inl h)

instance : IsTrans (String × Int) lbGe where
  trans a b c hab hbc := by
    rcases hab with h1 | ⟨h1, h1k⟩ <;> rcases hbc with h2 | ⟨h2, h2k⟩
    · exact Or.inl (h2.trans h1)
    · exact Or.inl (h2 ▸ h1)
    · exact Or.inl (h1 ▸ h2)
    · exact Or.inr ⟨h1.trans h2, h2k.trans h1k⟩

instance : IsAntisymm (String × Int) lbGe where
  antisymm a b hab hba := by
    rcases hab with h1 | ⟨h1, h1k⟩ <;> rcases hba with h2 | ⟨h2, h2k⟩
    · exact absurd h2 (not_lt_of_lt h1)
    · exact absurd h1 (h2 ▸ lt_irrefl _)
    · exact absurd h2 (h1 ▸ lt_irrefl _)
    · exact Prod.ext (le_antisymm h2k h1k) h1

/-- The sorted leaderboard built from a rewards snapshot: the
`(workerKey, reward)` pairs in descending `(reward, workerKey)` order.
Python's `sorted` is a stable total-order sort; since the sort key
`(t[1], t[0])` determines the pair, any sort w.r.t. `lbGe` yields the
same list, so `List.insertionSort` embeds it faithfully. -/
def leaderboard_sort (m : List (String × Int)) : List (String × Int) :=
  List.insertionSort lbGe m

/-- `publish_leaderboard` (source lines 53-71): read the rewards
snapshot for the node's current `(round, stage)`; the snapshot is
`none` when the DHT read misses, `some m` when it returns map `m`.
Python's `if curr_rewards:` is falsy both for `None` and for an empty
dict, hence the `m = []` case also only logs. -/
def publish_leaderboard (r s : Nat) (snap : Option (List (String × Int))) :
    List Event :=
  match snap with
  | none => [.logInfo]
  | some m =>
    if m = [] then [.logInfo]
    else [.storeLeaderboard r s (leaderboard_sort m)]

/-! ### `PublishingGRPOTrainer.compute_loss` (publication side effects) -/

/-- The DHT-publication tail of `compute_loss` (source lines 73-104),
after the external `super().compute_loss` call.  Parameters: the
trainer's `state.global_step`, the node's current round/stage, the md5
hash of the current question, `node.is_coordinator`, the running
`stage_rewards` accumulator, `sum(node.rewards)` for this step, and the
rewards snapshot `publish_leaderboard` would read.  Returns the emitted
events in program order. -/
def compute_loss_publish (globalStep r s qhash : Nat) (isCoord : Bool)
    (stageRewards rewardSum : Int)
    (snap : Option (List (String × Int))) : List Event :=
  (if globalStep % CADENCE_OF_UPDATE_STEPS = 0 then
    [.storeOutputs r s qhash, .putStageOutputs r s,
     .storeRewards r s (stageRewards + rewardSum)]
   else [])
  ++ (if isCoord then publish_leaderboard r s snap else [])

/-! ### `train_stage_and_save` -/

/-- The retry loop `for _ in range(MAX_TRAIN_FAILS)` of
`train_stage_and_save` (source lines 239-247).  `att k` is the outcome
of `trainer.train()` on attempt `k` (`none` = success, `some e` =
raises `e`); `s` is the node's current stage (used only to tag
`trainAttempt` events); the second `Nat` argument is the remaining
iteration count.  Returns the trace and either the propagating
exception or a flag telling whether `train_result` was assigned
(`false` = the loop exhausted with every attempt caught). -/
def tsas_loop (att : Nat → Option PyErr) (s : Nat) :
    Nat → Nat → List Event × Except PyErr Bool
  | _, 0 => ([], .ok false)
  | k, n + 1 =>
    match att k with
    | none => ([.trainAttempt s k], .ok true)
    | some e =>
      if isTransient e then
        let rest := tsas_loop att s (k + 1) n
        ([.trainAttempt s k, .logWarn, .cleanup, .sleep 5] ++ rest.1, rest.2)
      else
        ([.trainAttempt s k], .error e)

/-- `train_stage_and_save` (source lines 238-264): run the retry loop,
then `metrics = train_result.metrics` — which raises
`UnboundLocalError` when every attempt was caught and `train_result`
was never assigned — then log/save metrics, save model, rendezvous,
save tokenizer. -/
def train_stage_and_save (att : Nat → Option PyErr) (s : Nat) :
    List Event × Except PyErr Unit :=
  let res := tsas_loop att s 0 MAX_TRAIN_FAILS
  match res.2 with
  | .error e => (res.1, .error e)
  | .ok true =>
    (res.1 ++
      [.logMetrics, .saveMetrics, .saveState, .logInfo, .saveModel,
       .logInfo, .waitForEveryone, .saveTokenizer, .logInfo], .ok ())
  | .ok false => (res.1, .error .unboundLocal)

/-! ### `train_stages` -/

/-- The stage loop `for i, stage in enumerate(self.stage_data.stages[start_stage:])`
of `train_stages` (source lines 163-188).  `dBeh r s` is the outcome of
`stage.datasets_fn(r, s)` (`none` = returns datasets, `some e` = raises);
`tBeh r s k` is the outcome of attempt `k` of `trainer.train()` in stage
`s` of round `r`; `coord` is the `is_coordinator` argument; `s` is the
current stage number and the last argument the number of remaining
stages. -/
def stage_loop (dBeh : Nat → Nat → Option PyErr)
    (tBeh : Nat → Nat → Nat → Option PyErr) (coord : Bool) (r : Nat) :
    Nat → Nat → List Event × Except PyErr Unit
  | _, 0 => ([], .ok ())
  | s, n + 1 =>
    let hd := (if coord then [Event.storePointer r s] else []) ++
      [Event.logInfo, Event.datasetsFn r s]
    match dBeh r s with
    | some e => (hd, .error e)
    | none =>
      let t := train_stage_and_save (tBeh r s) s
      match t.2 with
      | .error e => (hd ++ t.1, .error e)
      | .ok _ =>
        let rest := stage_loop dBeh tBeh coord r (s + 1) n
        (hd ++ t.1 ++ [Event.logInfo] ++ rest.1, rest.2)

/-- `train_stages(round_num, start_stage, is_coordinator)` (source lines
160-212).  `numStages` is `len(self.stage_data.stages)`;
`pushConfigured` models `self.config.push_to_hub_token is not None` and
`pushFails` whether `trainer.push_to_hub` raises (the exception is
caught and logged).  After the loop: the optional hub push, then
`self.cleanup()`, then `del trainer` — which raises `NameError` when
the sliced stage list was empty so `trainer` was never bound. -/
def train_stages (numStages : Nat) (dBeh : Nat → Nat → Option PyErr)
    (tBeh : Nat → Nat → Nat → Option PyErr)
    (pushConfigured pushFails : Bool) (r start : Nat) (coord : Bool) :
    List Event × Except PyErr Unit :=
  let body := stage_loop dBeh tBeh coord r start (numStages - start)
  match body.2 with
  | .error e => (body.1, .error e)
  | .ok _ =>
    let pushTr : List Event :=
      if pushConfigured then
        if pushFails ∨ numStages ≤ start then [.logInfo, .pushToHub, .logInfo]
        else [.logInfo, .pushToHub, .sleep 1]
      else []
    let tr := body.1 ++ pushTr ++ [Event.cleanup]
    if start < numStages then (tr, .ok ()) else (tr, .error .nameError)

/-! ### `coordinator_train` -/

/-- The `while` loop of `coordinator_train` (source lines 269-285).
`timeOk r` models the `time.monotonic() - start_time < train_timeout`
conjunct of the loop condition at the iteration that would train round
`r`; the last argument is recursion fuel (the loop advances `round_num`
every iteration, so `maxRounds + 1` fuel is never exhausted). -/
def coordinator_loop (numStages maxRounds : Nat)
    (dBeh : Nat → Nat → Option PyErr)
    (tBeh : Nat → Nat → Nat → Option PyErr)
    (pushConfigured pushFails : Bool) (timeOk : Nat → Bool) :
    Nat → Nat → List Event × Except PyErr Unit
  | _, 0 => ([], .ok ())
  | r, fuel + 1 =>
    if r < maxRounds ∧ timeOk r then
      let body := train_stages numStages dBeh tBeh pushConfigured pushFails
        r 0 true
      match body.2 with
      | .error e => ([.logInfo, .getVisibleMaddrs] ++ body.1, .error e)
      | .ok _ =>
        if r + 1 = maxRounds then
          ([.logInfo, .getVisibleMaddrs] ++ body.1, .ok ())
        else
          let rest := coordinator_loop numStages maxRounds dBeh tBeh
            pushConfigured pushFails timeOk (r + 1) fuel
          ([.logInfo, .getVisibleMaddrs] ++ body.1 ++ rest.1, rest.2)
    else ([.logInfo], .ok ())

/-- `coordinator_train` starts its loop at `round_num = 0`. -/
def coordinator_train (numStages maxRounds : Nat)
    (dBeh : Nat → Nat → Option PyErr)
    (tBeh : Nat → Nat → Nat → Option PyErr)
    (pushConfigured pushFails : Bool) (timeOk : Nat → Bool) :
    List Event × Except PyErr Unit :=
  coordinator_loop numStages maxRounds dBeh tBeh pushConfigured pushFails
    timeOk 0 (maxRounds + 1)

/-- The `(round, stage)` pairs written to `ROUND_STAGE_NUMBER_KEY`, in
trace order. -/
def pointerWrites : List Event → List (Nat × Nat)
  | [] => []
  | .storePointer r s :: tr => (r, s) :: pointerWrites tr
  | _ :: tr => pointerWrites tr

/-! ### `follower_train` -/

/-- Follower-loop state across iterations: `done_rounds` (a Python
set, modelled as a duplicate-free list — insertions happen only under a
non-membership test) and `check_backoff`.  Python floats are modelled
by `ℚ` (only exact doubling, `min` and order are involved). -/
structure FollowerState where
  done_rounds : List Nat
  check_backoff : ℚ
deriving DecidableEq, Repr

/-- What one iteration of the follower loop observed:
`get_round_and_stage` either raised (`fetchFail`) or returned a
`(round, stage)` pair. -/
inductive Obs
  | fetchFail
  | rs (r s : Nat)
deriving DecidableEq, Repr

/-- How one iteration of the follower loop ended: fall through to the
next iteration, `return`, or a propagating exception. -/
inductive Ctl
  | cont
  | ret
  | exn (e : PyErr)
deriving DecidableEq, Repr

/-- Result of one follower-loop iteration. -/
structure IterOut where
  state : FollowerState
  events : List Event
  ctl : Ctl
deriving DecidableEq, Repr

/-- One iteration of the `while` loop of `follower_train` (source lines
296-338).  `ci`/`mci` are `check_interval`/`max_check_interval`;
`maxRounds` is `self.stage_data.max_rounds`; `obs` is what
`get_round_and_stage` yielded; `first` and `retry2` are the outcomes of
the up-to-two `train_stages` calls of this iteration (calls are
recorded as `trainStagesCall` events; their inner traces are the
subject of `train_stages` itself).  The throttled debug log of the
fetch-failure branch depends on wall-clock time and is elided.  The
final `round_num == max_rounds - 1` test uses Python integer
arithmetic, hence the `Int` comparison. -/
def follower_iteration (ci mci : ℚ) (maxRounds : Nat)
    (st : FollowerState) (obs : Obs) (first retry2 : Except PyErr Unit) :
    IterOut :=
  match obs with
  | .fetchFail => ⟨st, [.getVisibleMaddrs, .sleep ci], .cont⟩
  | .rs r s =>
    let lastRound : Ctl := if (r : Int) = (maxRounds : Int) - 1 then .ret else .cont
    if r ∈ st.done_rounds then
      ⟨⟨st.done_rounds, min (st.check_backoff * 2) mci⟩,
        [.getVisibleMaddrs, .logInfo, .sleep st.check_backoff], lastRound⟩
    else
      match first with
      | .ok _ =>
        ⟨⟨r :: st.done_rounds, ci⟩,
          [.getVisibleMaddrs, .logInfo, .trainStagesCall r s], lastRound⟩
      | .error e =>
        if e = .datasetGenError ∧ 0 < s then
          match retry2 with
          | .ok _ =>
            ⟨⟨r :: st.done_rounds, ci⟩,
              [.getVisibleMaddrs, .logInfo, .trainStagesCall r s, .logInfo,
               .trainStagesCall r 0], lastRound⟩
          | .error e2 =>
            ⟨st,
              [.getVisibleMaddrs, .logInfo, .trainStagesCall r s, .logInfo,
               .trainStagesCall r 0], .exn e2⟩
        else
          ⟨st, [.getVisibleMaddrs, .logInfo, .trainStagesCall r s], .exn e⟩

/-! ### Trace observation helpers -/

/-- Number of `cleanup()` invocations recorded in a trace. -/
def countCleanups : List Event → Nat
  | [] => 0
  | e :: tr => (if e = Event.cleanup then 1 else 0) + countCleanups tr

/-- Number of `time.sleep(5)` delays (the retry delay of
`train_stage_and_save`) recorded in a trace. -/
def countSleep5 : List Event → Nat
  | [] => 0
  | e :: tr => (if e = Event.sleep 5 then 1 else 0) + countSleep5 tr

/-- Number of `trainer.train()` attempts recorded in a trace. -/
def countTrainAttempts (tr : List Event) : Nat :=
  tr.countP fun e =>
    match e with
    | .trainAttempt _ _ => true
    | _ => false

/-- Number of distributed-store writes recorded in a trace. -/
def countStoreWrites (tr : List Event) : Nat :=
  tr.countP fun e => isStoreWrite e

/-- The `(round, stage)` arguments of the `train_stages` calls recorded
in a follower trace, in order. -/
def stageCallArgs (tr : List Event) : List (Nat × Nat) :=
  tr.filterMap fun e =>
    match e with
    | .trainStagesCall r s => some (r, s)
    | _ => none

/-- `1` for a normal return, `0` for a propagating exception. -/
def okBonus : Except PyErr Unit → Nat
  | .ok _ => 1
  | .error _ => 0

/-- Strict lexicographic order on `(round, stage)` pointer values. -/
def pointerLt (p q : Nat × Nat) : Prop :=
  p.1 < q.1 ∨ (p.1 = q.1 ∧ p.2 < q.2)

/-! ### A scanner for "pointer stored before stage work" (claim C1) -/

/-- Stage numbers of round `r` whose progress pointer a single event
adds to the already-seen set. -/
def seenInsert (r : Nat) (e : Event) (seen : List Nat) : List Nat :=
  match e with
  | .storePointer r2 s2 => if r2 = r then s2 :: seen else seen
  | _ => seen

/-- All stage numbers of round `r` whose progress pointer was stored
somewhere in the trace, accumulated over `seen`. -/
def scanSeen (r : Nat) : List Event → List Nat → List Nat
  | [], seen => seen
  | e :: tr, seen => scanSeen r tr (seenInsert r e seen)

/-- One event is in order iff it is not a round-`r` dataset build or a
train attempt for a stage whose pointer has not been stored yet. -/
def ptrOkEvent (r : Nat) (e : Event) (seen : List Nat) : Bool :=
  match e with
  | .datasetsFn r2 s2 => decide (r2 = r → s2 ∈ seen)
  | .trainAttempt s2 _ => decide (s2 ∈ seen)
  | _ => true

/-- The whole trace is in order: every round-`r` dataset build and every
train attempt is preceded by the store of its stage's pointer. -/
def ptrScanOk (r : Nat) : List Event → List Nat → Bool
  | [], _ => true
  | e :: tr, seen => ptrOkEvent r e seen && ptrScanOk r tr (seenInsert r e seen)

/-! ## Claim theorems -/

/-- C2: when `trainer.train()` raises `BlockingIOError` on every
attempt, `train_stage_and_save` attempts it exactly `MAX_TRAIN_FAILS`
(5) times with cleanup and a 5-second delay after each caught failure;
but it does NOT propagate the transient error: the final failure is
caught too, `train_result` is never assigned, and the subsequent
`train_result.metrics` raises `UnboundLocalError`.  This refutes the
claimed propagation of the transient error (the code's slip). -/
theorem C2_exhausted_retries_raise_unbound_local :
    (train_stage_and_save (fun _ => some PyErr.blockingIOError) 0).2 =
      Except.error PyErr.unboundLocal ∧
    (train_stage_and_save (fun _ => some PyErr.blockingIOError) 0).2 ≠
      Except.error PyErr.blockingIOError ∧
    countTrainAttempts (train_stage_and_save (fun _ => some PyErr.blockingIOError) 0).1 =
      MAX_TRAIN_FAILS ∧
    (train_stage_and_save (fun _ => some PyErr.blockingIOError) 0).1 =
      [.trainAttempt 0 0, .logWarn, .cleanup, .sleep 5,
       .trainAttempt 0 1, .logWarn, .cleanup, .sleep 5,
       .trainAttempt 0 2, .logWarn, .cleanup, .sleep 5,
       .trainAttempt 0 3, .logWarn, .cleanup, .sleep 5,
       .trainAttempt 0 4, .logWarn, .cleanup, .sleep 5] := by
  decide

/-- C6: the coordinator's leaderboard republication in `compute_loss`
sits OUTSIDE the `global_step % CADENCE_OF_UPDATE_STEPS == 0` guard, so
on step 1 (not a multiple of 4) the coordinator still performs a DHT
store of the leaderboard — contradicting the claim (and the code's own
comment "Only publish to DHT every N steps"). -/
theorem C6_leaderboard_store_off_cadence :
    1 % CADENCE_OF_UPDATE_STEPS ≠ 0 ∧
    compute_loss_publish 1 0 0 7 true 0 0 (some [("a", 2)]) =
      [Event.storeLeaderboard 0 0 [("a", 2)]] ∧
    countStoreWrites (compute_loss_publish 1 0 0 7 true 0 0 (some [("a", 2)])) =
      1 := by
  decide

/-- C7: with an absent rewards snapshot, `publish_leaderboard` only
logs and performs zero store writes (likewise for an empty snapshot,
falsy in Python); and any leaderboard it ever stores is the full sorted
snapshot of a nonempty rewards map — never empty or partial. -/
theorem C7_missing_snapshot_no_write (r s : Nat) :
    publish_leaderboard r s none = [Event.logInfo] ∧
    countStoreWrites (publish_leaderboard r s none) = 0 ∧
    countStoreWrites (publish_leaderboard r s (some [])) = 0 ∧
    ∀ m r2 s2 lb,
      Event.storeLeaderboard r2 s2 lb ∈ publish_leaderboard r s (some m) →
      r2 = r ∧ s2 = s ∧ lb = leaderboard_sort m ∧ m ≠ [] := by
  refine ⟨rfl, rfl, rfl, ?_⟩
  intro m r2 s2 lb hmem
  by_cases hm : m = []
  · subst hm; simp [publish_leaderboard] at hmem
  · simp [publish_leaderboard, hm] at hmem
    exact ⟨hmem.1, hmem.2.1, hmem.2.2, hm⟩

/-- Witness for `C7_missing_snapshot_no_write` at a concrete stored
leaderboard event. -/
theorem C7_missing_snapshot_no_write_witness :
    Event.storeLeaderboard 0 0 [("a", (2 : Int))] ∈
      publish_leaderboard 0 0 (some [("a", 2)]) ∧
    ((0 : Nat) = 0 ∧ (0 : Nat) = 0 ∧
      [("a", (2 : Int))] = leaderboard_sort [("a", 2)] ∧
      ([("a", (2 : Int))] : List (String × Int)) ≠ []) :=
  ⟨by decide,
   (C7_missing_snapshot_no_write 0 0).2.2.2 [("a", 2)] 0 0 [("a", 2)] (by decide)⟩

/-- C4: the leaderboard built from a rewards snapshot is exactly the
snapshot's `(workerKey, reward)` pairs in descending `(reward, key)`
order: it is a permutation of the snapshot, sorted by `lbGe`, and it is
the UNIQUE such list (so two invocations on the same snapshot produce
identical ordered output); moreover `publish_leaderboard` stores
exactly this list for a nonempty snapshot. -/
theorem C4_leaderboard_deterministic_sort (m : List (String × Int)) :
    List.Perm (leaderboard_sort m) m ∧
    List.Sorted lbGe (leaderboard_sort m) ∧
    (∀ l, List.Perm l m → List.Sorted lbGe l → l = leaderboard_sort m) ∧
    (∀ r s, m ≠ [] →
      publish_leaderboard r s (some m) =
        [Event.storeLeaderboard r s (leaderboard_sort m)]) := by
  refine ⟨List.perm_insertionSort lbGe m, List.sorted_insertionSort lbGe m,
    ?_, ?_⟩
  · intro l hp hs
    exact List.eq_of_perm_of_sorted
      (hp.trans (List.perm_insertionSort lbGe m).symm) hs
      (List.sorted_insertionSort lbGe m)
  · intro r s hm
    simp [publish_leaderboard, hm]

/-- Witness for `C4_leaderboard_deterministic_sort`: a snapshot with a
reward tie, broken descending by worker key. -/
theorem C4_leaderboard_deterministic_sort_witness :
    List.Perm [("carol", (2 : Int)), ("bob", 2), ("alice", 1)]
      [("alice", (1 : Int)), ("bob", 2), ("carol", 2)] ∧
    List.Sorted lbGe [("carol", (2 : Int)), ("bob", 2), ("alice", 1)] ∧
    [("carol", (2 : Int)), ("bob", 2), ("alice", 1)] =
      leaderboard_sort [("alice", 1), ("bob", 2), ("carol", 2)] :=
  ⟨by decide, by simp [List.sorted_cons, lbGe]; decide,
   (C4_leaderboard_deterministic_sort
     [("alice", 1), ("bob", 2), ("carol", 2)]).2.2.1 _ (by decide)
     (by simp [List.sorted_cons, lbGe]; decide)⟩

/-- C5 counterexample: a `train_stages` call in which the only stage's
dataset construction raises.  The error propagates out of the call, yet
`cleanup()` runs ZERO times — the terminal `self.cleanup()` is not in a
`finally` block, so it is skipped on the thrown-error path, refuting
"cleanup runs exactly once ... on both the success path and the
thrown-error path". -/
theorem C5_error_path_skips_cleanup :
    (train_stages 1 (fun _ _ => some PyErr.otherError) (fun _ _ _ => none)
      false false 0 0 true).2 = Except.error PyErr.otherError ∧
    countCleanups
      (train_stages 1 (fun _ _ => some PyErr.otherError) (fun _ _ _ => none)
        false false 0 0 true).1 = 0 ∧
    ¬ countCleanups
      (train_stages 1 (fun _ _ => some PyErr.otherError) (fun _ _ _ => none)
        false false 0 0 true).1 = 1 := by
  decide

/-- C10 counterexample: with a 2-stage schedule and `max_rounds = 2`,
the coordinator writes the pointer sequence
`(0,0), (0,1), (1,0), (1,1)`; the stage component goes `1` then `0`
across the round boundary, so the components are NOT each monotonically
non-decreasing. -/
theorem C10_stage_component_not_monotone :
    pointerWrites (coordinator_train 2 2 (fun _ _ => none)
      (fun _ _ _ => none) false false (fun _ => true)).1 =
      [(0, 0), (0, 1), (1, 0), (1, 1)] ∧
    ¬ List.Chain' (fun p q : Nat × Nat => p.1 ≤ q.1 ∧ p.2 ≤ q.2)
      (pointerWrites (coordinator_train 2 2 (fun _ _ => none)
        (fun _ _ _ => none) false false (fun _ => true)).1) := by
  have hw : pointerWrites (coordinator_train 2 2 (fun _ _ => none)
      (fun _ _ _ => none) false false (fun _ => true)).1 =
      [(0, 0), (0, 1), (1, 0), (1, 1)] := by decide
  refine ⟨hw, fun h => ?_⟩
  rw [hw] at h
  simp [List.chain'_cons] at h

/-- Shape of an idle follower iteration (observed round already done). -/
theorem follower_iteration_done (ci mci : ℚ) (mr : Nat) (st : FollowerState)
    (r s : Nat) (f g : Except PyErr Unit) (h : r ∈ st.done_rounds) :
    follower_iteration ci mci mr st (.rs r s) f g =
      ⟨⟨st.done_rounds, min (st.check_backoff * 2) mci⟩,
       [.getVisibleMaddrs, .logInfo, .sleep st.check_backoff],
       if (r : Int) = (mr : Int) - 1 then .ret else .cont⟩ := by
  simp [follower_iteration, h]

/-- Shape of a follower iteration that joins a fresh round and whose
`train_stages` call succeeds. -/
theorem follower_iteration_join_ok (ci mci : ℚ) (mr : Nat)
    (st : FollowerState) (r s : Nat) (g : Except PyErr Unit)
    (hr : r ∉ st.done_rounds) :
    follower_iteration ci mci mr st (.rs r s) (.ok ()) g =
      ⟨⟨r :: st.done_rounds, ci⟩,
       [.getVisibleMaddrs, .logInfo, .trainStagesCall r s],
       if (r : Int) = (mr : Int) - 1 then .ret else .cont⟩ := by
  simp [follower_iteration, hr]

/-- Shape of a follower iteration whose replay at stage `s > 0` raises
a dataset-generation error and whose stage-0 retry succeeds. -/
theorem follower_iteration_retry_ok (ci mci : ℚ) (mr : Nat)
    (st : FollowerState) (r s : Nat) (hr : r ∉ st.done_rounds)
    (hs : 0 < s) :
    follower_iteration ci mci mr st (.rs r s)
        (.error .datasetGenError) (.ok ()) =
      ⟨⟨r :: st.done_rounds, ci⟩,
       [.getVisibleMaddrs, .logInfo, .trainStagesCall r s, .logInfo,
        .trainStagesCall r 0],
       if (r : Int) = (mr : Int) - 1 then .ret else .cont⟩ := by
  simp [follower_iteration, hr, hs]

/-- Shape of a follower iteration whose replay at stage `s > 0` raises
a dataset-generation error and whose stage-0 retry raises `e2`. -/
theorem follower_iteration_retry_err (ci mci : ℚ) (mr : Nat)
    (st : FollowerState) (r s : Nat) (e2 : PyErr)
    (hr : r ∉ st.done_rounds) (hs : 0 < s) :
    follower_iteration ci mci mr st (.rs r s)
        (.error .datasetGenError) (.error e2) =
      ⟨st,
       [.getVisibleMaddrs, .logInfo, .trainStagesCall r s, .logInfo,
        .trainStagesCall r 0], .exn e2⟩ := by
  simp [follower_iteration, hr, hs]

/-- Shape of a follower iteration whose replay raises an error that the
`except datasets.exceptions.DatasetGenerationError` handler does not
absorb (wrong class, or observed stage 0). -/
theorem follower_iteration_join_err (ci mci : ℚ) (mr : Nat)
    (st : FollowerState) (r s : Nat) (e : PyErr) (g : Except PyErr Unit)
    (hr : r ∉ st.done_rounds)
    (hc : ¬(e = PyErr.datasetGenError ∧ 0 < s)) :
    follower_iteration ci mci mr st (.rs r s) (.error e) g =
      ⟨st, [.getVisibleMaddrs, .logInfo, .trainStagesCall r s], .exn e⟩ := by
  simp [follower_iteration, hr, hc]

/-- C9: an iteration of the follower loop that observes a round already
in `done_rounds` runs no `train_stages`, performs no store writes, its
only events are the liveness read, a log and the backoff sleep, leaves
`done_rounds` unchanged, modifies only `check_backoff`, and never
raises. -/
theorem C9_idle_iteration_frame (ci mci : ℚ) (mr : Nat) (st : FollowerState)
    (r s : Nat) (f g : Except PyErr Unit) (h : r ∈ st.done_rounds) :
    (follower_iteration ci mci mr st (.rs r s) f g).state.done_rounds =
      st.done_rounds ∧
    (follower_iteration ci mci mr st (.rs r s) f g).state.check_backoff =
      min (st.check_backoff * 2) mci ∧
    (follower_iteration ci mci mr st (.rs r s) f g).events =
      [.getVisibleMaddrs, .logInfo, .sleep st.check_backoff] ∧
    stageCallArgs (follower_iteration ci mci mr st (.rs r s) f g).events =
      [] ∧
    countStoreWrites
      (follower_iteration ci mci mr st (.rs r s) f g).events = 0 ∧
    ((follower_iteration ci mci mr st (.rs r s) f g).ctl = .cont ∨
     (follower_iteration ci mci mr st (.rs r s) f g).ctl = .ret) := by
  rw [follower_iteration_done ci mci mr st r s f g h]
  refine ⟨rfl, rfl, rfl, rfl, rfl, ?_⟩
  by_cases hm : (r : Int) = (mr : Int) - 1
  · exact Or.inr (by rw [if_pos hm])
  · exact Or.inl (by rw [if_neg hm])

/-- Witness for `C9_idle_iteration_frame` at a concrete idle poll. -/
theorem C9_idle_iteration_frame_witness :
    0 ∈ ([0] : List Nat) ∧
    ((follower_iteration 5 300 3 ⟨[0], 5⟩ (.rs 0 0) (.ok ()) (.ok ())).state.done_rounds
        = [0] ∧
      (follower_iteration 5 300 3 ⟨[0], 5⟩ (.rs 0 0) (.ok ()) (.ok ())).state.check_backoff
        = min ((5 : ℚ) * 2) 300 ∧
      (follower_iteration 5 300 3 ⟨[0], 5⟩ (.rs 0 0) (.ok ()) (.ok ())).events
        = [.getVisibleMaddrs, .logInfo, .sleep 5] ∧
      stageCallArgs
        (follower_iteration 5 300 3 ⟨[0], 5⟩ (.rs 0 0) (.ok ()) (.ok ())).events
        = [] ∧
      countStoreWrites
        (follower_iteration 5 300 3 ⟨[0], 5⟩ (.rs 0 0) (.ok ()) (.ok ())).events
        = 0 ∧
      ((follower_iteration 5 300 3 ⟨[0], 5⟩ (.rs 0 0) (.ok ()) (.ok ())).ctl = .cont ∨
       (follower_iteration 5 300 3 ⟨[0], 5⟩ (.rs 0 0) (.ok ()) (.ok ())).ctl = .ret)) :=
  ⟨by decide,
   C9_idle_iteration_frame 5 300 3 ⟨[0], 5⟩ 0 0 (.ok ()) (.ok ()) (by decide)⟩

/-- C8: on an idle poll (round already done) with the invariant
`0 ≤ check_backoff ≤ max_check_interval`, the backoff becomes
`min(2 * backoff, max_check_interval)`, never decreases and never
exceeds the cap; and a successfully replayed round (directly or via the
stage-0 retry) resets it to `check_interval`. -/
theorem C8_backoff_monotone_capped_reset (ci mci : ℚ) (mr : Nat)
    (st : FollowerState) (r s : Nat) (f g : Except PyErr Unit) :
    (0 ≤ st.check_backoff → st.check_backoff ≤ mci → r ∈ st.done_rounds →
      (follower_iteration ci mci mr st (.rs r s) f g).state.check_backoff =
        min (st.check_backoff * 2) mci ∧
      st.check_backoff ≤
        (follower_iteration ci mci mr st (.rs r s) f g).state.check_backoff ∧
      (follower_iteration ci mci mr st (.rs r s) f g).state.check_backoff ≤
        mci) ∧
    (r ∉ st.done_rounds →
      (f = Except.ok () ∨
        (f = Except.error PyErr.datasetGenError ∧ 0 < s ∧ g = Except.ok ())) →
      (follower_iteration ci mci mr st (.rs r s) f g).state.check_backoff =
        ci) := by
  constructor
  · intro h0 hb h
    rw [follower_iteration_done ci mci mr st r s f g h]
    exact ⟨rfl, le_min (by linarith) hb, min_le_right _ _⟩
  · intro h hcase
    rcases hcase with hf | ⟨hf, hs, hg⟩
    · subst hf; rw [follower_iteration_join_ok ci mci mr st r s g h]
    · subst hf; subst hg
      rw [follower_iteration_retry_ok ci mci mr st r s h hs]

/-- Witness for `C8_backoff_monotone_capped_reset` at a concrete idle
poll with the default intervals. -/
theorem C8_backoff_monotone_capped_reset_witness :
    (0 : ℚ) ≤ 5 ∧ (5 : ℚ) ≤ 300 ∧ 0 ∈ ([0] : List Nat) ∧
    ((follower_iteration 5 300 3 ⟨[0], 5⟩ (.rs 0 1) (.ok ()) (.ok ())).state.check_backoff
        = min ((5 : ℚ) * 2) 300 ∧
      (5 : ℚ) ≤
        (follower_iteration 5 300 3 ⟨[0], 5⟩ (.rs 0 1) (.ok ()) (.ok ())).state.check_backoff ∧
      (follower_iteration 5 300 3 ⟨[0], 5⟩ (.rs 0 1) (.ok ()) (.ok ())).state.check_backoff
        ≤ 300) :=
  ⟨by norm_num, by norm_num, by decide,
   (C8_backoff_monotone_capped_reset 5 300 3 ⟨[0], 5⟩ 0 1 (.ok ()) (.ok ())).1
     (by norm_num) (by norm_num) (by decide)⟩

/-- C3: a follower iteration joining a not-yet-done round: on success a
single `train_stages(r, s)` call is made; on a dataset-generation error
with observed stage `> 0` exactly one retry from stage 0 follows, and
if the retry fails with any error that error propagates; on a
dataset-generation error at stage 0, or any other error, no retry
occurs and the error propagates. -/
theorem C3_dataset_retry_once (ci mci : ℚ) (mr : Nat) (st : FollowerState)
    (r s : Nat) (f g : Except PyErr Unit) (hr : r ∉ st.done_rounds) :
    (f = Except.ok () →
      stageCallArgs (follower_iteration ci mci mr st (.rs r s) f g).events =
        [(r, s)] ∧
      ((follower_iteration ci mci mr st (.rs r s) f g).ctl = .cont ∨
       (follower_iteration ci mci mr st (.rs r s) f g).ctl = .ret)) ∧
    (f = Except.error PyErr.datasetGenError → 0 < s →
      stageCallArgs (follower_iteration ci mci mr st (.rs r s) f g).events =
        [(r, s), (r, 0)] ∧
      (g = Except.ok () →
        (follower_iteration ci mci mr st (.rs r s) f g).state.done_rounds =
          r :: st.done_rounds ∧
        ((follower_iteration ci mci mr st (.rs r s) f g).ctl = .cont ∨
         (follower_iteration ci mci mr st (.rs r s) f g).ctl = .ret)) ∧
      (∀ e2, g = Except.error e2 →
        (follower_iteration ci mci mr st (.rs r s) f g).ctl = .exn e2)) ∧
    (f = Except.error PyErr.datasetGenError → s = 0 →
      stageCallArgs (follower_iteration ci mci mr st (.rs r s) f g).events =
        [(r, s)] ∧
      (follower_iteration ci mci mr st (.rs r s) f g).ctl =
        .exn PyErr.datasetGenError) ∧
    (∀ e, f = Except.error e → e ≠ PyErr.datasetGenError →
      stageCallArgs (follower_iteration ci mci mr st (.rs r s) f g).events =
        [(r, s)] ∧
      (follower_iteration ci mci mr st (.rs r s) f g).ctl = .exn e) := by
  refine ⟨?_, ?_, ?_, ?_⟩
  · intro hf
    subst hf
    rw [follower_iteration_join_ok ci mci mr st r s g hr]
    refine ⟨rfl, ?_⟩
    by_cases hm : (r : Int) = (mr : Int) - 1
    · exact Or.inr (by rw [if_pos hm])
    · exact Or.inl (by rw [if_neg hm])
  · intro hf hs
    subst hf
    refine ⟨?_, ?_, ?_⟩
    · cases g with
      | ok u =>
        cases u
        rw [follower_iteration_retry_ok ci mci mr st r s hr hs]
        simp [stageCallArgs]
      | error e2 =>
        rw [follower_iteration_retry_err ci mci mr st r s e2 hr hs]
        simp [stageCallArgs]
    · intro hg
      subst hg
      rw [follower_iteration_retry_ok ci mci mr st r s hr hs]
      refine ⟨rfl, ?_⟩
      by_cases hm : (r : Int) = (mr : Int) - 1
      · exact Or.inr (by rw [if_pos hm])
      · exact Or.inl (by rw [if_neg hm])
    · intro e2 hg
      subst hg
      rw [follower_iteration_retry_err ci mci mr st r s e2 hr hs]
  · intro hf hs
    subst hf
    subst hs
    rw [follower_iteration_join_err ci mci mr st r 0 PyErr.datasetGenError g hr
      (by simp)]
    exact ⟨rfl, rfl⟩
  · intro e hf he
    subst hf
    rw [follower_iteration_join_err ci mci mr st r s e g hr
      (fun hc => he hc.1)]
    exact ⟨rfl, rfl⟩

/-- Witness for `C3_dataset_retry_once`: a follower joining round 0 at
stage 2 whose replay and whose stage-0 retry both fail. -/
theorem C3_dataset_retry_once_witness :
    0 ∉ ([] : List Nat) ∧
    (Except.error PyErr.datasetGenError
      = (Except.error PyErr.datasetGenError : Except PyErr Unit)) ∧
    0 < 2 ∧
    (stageCallArgs (follower_iteration 5 300 3 ⟨[], 5⟩ (.rs 0 2)
        (.error .datasetGenError) (.error .otherError)).events =
        [(0, 2), (0, 0)] ∧
      ((Except.error PyErr.otherError : Except PyErr Unit) = Except.ok () →
        (follower_iteration 5 300 3 ⟨[], 5⟩ (.rs 0 2)
          (.error .datasetGenError) (.error .otherError)).state.done_rounds =
          0 :: [] ∧
        ((follower_iteration 5 300 3 ⟨[], 5⟩ (.rs 0 2)
            (.error .datasetGenError) (.error .otherError)).ctl = .cont ∨
         (follower_iteration 5 300 3 ⟨[], 5⟩ (.rs 0 2)
            (.error .datasetGenError) (.error .otherError)).ctl = .ret)) ∧
      (∀ e2, (Except.error PyErr.otherError : Except PyErr Unit) =
          Except.error e2 →
        (follower_iteration 5 300 3 ⟨[], 5⟩ (.rs 0 2)
          (.error .datasetGenError) (.error .otherError)).ctl = .exn e2)) :=
  ⟨by decide, rfl, by decide,
   (C3_dataset_retry_once 5 300 3 ⟨[], 5⟩ 0 2 (.error .datasetGenError)
     (.error .otherError) (by decide)).2.1 rfl (by decide)⟩

/-- `countCleanups` is additive over concatenation. -/
theorem countCleanups_append (a b : List Event) :
    countCleanups (a ++ b) = countCleanups a + countCleanups b := by
  induction a with
  | nil => simp [countCleanups]
  | cons e tr ih => simp [countCleanups, ih]; omega

/-- `countSleep5` is additive over concatenation. -/
theorem countSleep5_append (a b : List Event) :
    countSleep5 (a ++ b) = countSleep5 a + countSleep5 b := by
  induction a with
  | nil => simp [countSleep5]
  | cons e tr ih => simp [countSleep5, ih]; omega

/-- In the retry loop every `cleanup()` is paired with one `sleep(5)`:
both happen exactly once per caught transient failure. -/
theorem tsas_loop_cleanup_eq_sleep5 (att : Nat → Option PyErr) (s : Nat) :
    ∀ n k, countCleanups (tsas_loop att s k n).1 =
      countSleep5 (tsas_loop att s k n).1 := by
  intro n
  induction n with
  | zero => intro k; rfl
  | succ n ih =>
    intro k
    simp only [tsas_loop]
    cases att k with
    | none => rfl
    | some e =>
      cases he : isTransient e
      · simp [he, countCleanups, countSleep5]
      · simp [he, countCleanups, countSleep5, ih (k + 1)]

/-- `train_stage_and_save` performs exactly one `cleanup()` per caught
transient failure (each with its 5-second delay) and no other. -/
theorem train_stage_and_save_cleanup_eq_sleep5 (att : Nat → Option PyErr)
    (s : Nat) :
    countCleanups (train_stage_and_save att s).1 =
      countSleep5 (train_stage_and_save att s).1 := by
  unfold train_stage_and_save
  cases h : (tsas_loop att s 0 MAX_TRAIN_FAILS).2 with
  | error e =>
    simpa [h] using tsas_loop_cleanup_eq_sleep5 att s MAX_TRAIN_FAILS 0
  | ok b =>
    cases b
    · simpa [h] using tsas_loop_cleanup_eq_sleep5 att s MAX_TRAIN_FAILS 0
    · simp [h, countCleanups_append, countSleep5_append, countCleanups,
        countSleep5]
      simpa [h] using tsas_loop_cleanup_eq_sleep5 att s MAX_TRAIN_FAILS 0

/-- Over the stage loop, cleanups still come only from the retry
handler, one per caught transient failure. -/
theorem stage_loop_cleanup_eq_sleep5 (dBeh : Nat → Nat → Option PyErr)
    (tBeh : Nat → Nat → Nat → Option PyErr) (coord : Bool) (r : Nat) :
    ∀ n s, countCleanups (stage_loop dBeh tBeh coord r s n).1 =
      countSleep5 (stage_loop dBeh tBeh coord r s n).1 := by
  intro n
  induction n with
  | zero => intro s; rfl
  | succ n ih =>
    intro s
    simp only [stage_loop]
    cases dBeh r s with
    | some e =>
      cases coord <;> simp [countCleanups, countSleep5]
    | none =>
      cases h : (train_stage_and_save (tBeh r s) s).2 with
      | error e =>
        have := train_stage_and_save_cleanup_eq_sleep5 (tBeh r s) s
        cases coord <;>
          simp [h, countCleanups_append, countSleep5_append, countCleanups,
            countSleep5, this]
      | ok u =>
        have h1 := train_stage_and_save_cleanup_eq_sleep5 (tBeh r s) s
        have h2 := ih (s + 1)
        cases coord <;>
          simp [h, countCleanups_append, countSleep5_append, countCleanups,
            countSleep5, h1, h2]

/-- C5 (amended): for a `train_stages` call on a nonempty stage slice,
`cleanup()` runs once per caught transient training failure (each
paired with the 5-second retry sleep) plus exactly one terminal call on
the success path and NO terminal call when a stage's error propagates:
`countCleanups = countSleep5 + 1` on success, `= countSleep5` on the
thrown-error path. -/
theorem C5_amended_cleanup_once_on_success (numStages : Nat)
    (dBeh : Nat → Nat → Option PyErr)
    (tBeh : Nat → Nat → Nat → Option PyErr)
    (pc pf : Bool) (r start : Nat) (coord : Bool)
    (h : start < numStages) :
    countCleanups (train_stages numStages dBeh tBeh pc pf r start coord).1 =
      countSleep5 (train_stages numStages dBeh tBeh pc pf r start coord).1 +
      okBonus (train_stages numStages dBeh tBeh pc pf r start coord).2 := by
  unfold train_stages
  cases hb : (stage_loop dBeh tBeh coord r start (numStages - start)).2 with
  | error e =>
    have := stage_loop_cleanup_eq_sleep5 dBeh tBeh coord r
      (numStages - start) start
    simp [hb, okBonus, this]
  | ok u =>
    have h1 := stage_loop_cleanup_eq_sleep5 dBeh tBeh coord r
      (numStages - start) start
    have hlt : start < numStages := h
    cases pc <;> cases pf <;>
      simp [hb, hlt, okBonus, countCleanups_append, countSleep5_append,
        countCleanups, countSleep5, h1, Nat.not_le_of_lt hlt]

/-- Witness for `C5_amended_cleanup_once_on_success`: a one-stage
all-success run has exactly one cleanup, zero retry sleeps. -/
theorem C5_amended_cleanup_once_on_success_witness :
    0 < 1 ∧
    countCleanups (train_stages 1 (fun _ _ => none) (fun _ _ _ => none)
        false false 0 0 true).1 =
      countSleep5 (train_stages 1 (fun _ _ => none) (fun _ _ _ => none)
        false false 0 0 true).1 +
      okBonus (train_stages 1 (fun _ _ => none) (fun _ _ _ => none)
        false false 0 0 true).2 :=
  ⟨by decide,
   C5_amended_cleanup_once_on_success 1 (fun _ _ => none) (fun _ _ _ => none)
     false false 0 0 true (by decide)⟩

/-- An element of `head?` is an element of the list. -/
theorem mem_of_head?_mem {α : Type _} {x : α} {l : List α}
    (h : x ∈ l.head?) : x ∈ l := by
  have h2 := List.eq_cons_of_mem_head? h
  rw [h2]
  exact List.mem_cons_self x _

/-- An element of `getLast?` is an element of the list. -/
theorem mem_of_getLast?_mem {α : Type _} {x : α} {l : List α}
    (h : x ∈ l.getLast?) : x ∈ l := by
  rcases List.mem_getLast?_eq_getLast h with ⟨hne, hx⟩
  rw [hx]
  exact List.getLast_mem hne

/-- Pointer-write extraction distributes over concatenation. -/
theorem pointerWrites_append (a b : List Event) :
    pointerWrites (a ++ b) = pointerWrites a ++ pointerWrites b := by
  induction a with
  | nil => rfl
  | cons e tr ih => cases e <;> simp [pointerWrites, ih]

/-- Pointer writes of the per-stage header block: the coordinator's
pointer store followed by the start log and the dataset build. -/
theorem pointerWrites_stage_head (coord : Bool) (r s : Nat) :
    pointerWrites ((if coord then [Event.storePointer r s] else []) ++
        [Event.logInfo, Event.datasetsFn r s]) =
      if coord then [(r, s)] else [] := by
  cases coord <;> rfl

/-- The retry loop never writes the progress pointer. -/
theorem pointerWrites_tsas_loop (att : Nat → Option PyErr) (s : Nat) :
    ∀ n k, pointerWrites (tsas_loop att s k n).1 = [] := by
  intro n
  induction n with
  | zero => intro k; rfl
  | succ n ih =>
    intro k
    simp only [tsas_loop]
    cases att k with
    | none => rfl
    | some e =>
      cases he : isTransient e
      · simp [he, pointerWrites]
      · simp [he, pointerWrites_append, pointerWrites, ih (k + 1)]

/-- `train_stage_and_save` never writes the progress pointer. -/
theorem pointerWrites_train_stage_and_save (att : Nat → Option PyErr)
    (s : Nat) :
    pointerWrites (train_stage_and_save att s).1 = [] := by
  unfold train_stage_and_save
  cases h : (tsas_loop att s 0 MAX_TRAIN_FAILS).2 with
  | error e => simpa [h] using pointerWrites_tsas_loop att s MAX_TRAIN_FAILS 0
  | ok b =>
    cases b
    · simpa [h] using pointerWrites_tsas_loop att s MAX_TRAIN_FAILS 0
    · simp [h, pointerWrites_append, pointerWrites,
        pointerWrites_tsas_loop att s MAX_TRAIN_FAILS 0]

/-- Every pointer write of the stage loop starting at stage `s` of
round `r` carries round `r` and a stage at least `s`. -/
theorem pointerWrites_stage_loop_mem (dBeh : Nat → Nat → Option PyErr)
    (tBeh : Nat → Nat → Nat → Option PyErr) (coord : Bool) (r : Nat) :
    ∀ n s p, p ∈ pointerWrites (stage_loop dBeh tBeh coord r s n).1 →
      p.1 = r ∧ s ≤ p.2 := by
  intro n
  induction n with
  | zero =>
    intro s p hp
    simp [stage_loop, pointerWrites] at hp
  | succ n ih =>
    intro s p hp
    simp only [stage_loop] at hp
    cases hd : dBeh r s with
    | some e =>
      rw [hd, pointerWrites_stage_head] at hp
      cases coord with
      | false => simp at hp
      | true =>
        simp at hp
        exact ⟨by rw [hp], by rw [hp]⟩
    | none =>
      rw [hd] at hp
      cases ht : (train_stage_and_save (tBeh r s) s).2 with
      | error e =>
        rw [ht, pointerWrites_append, pointerWrites_stage_head,
          pointerWrites_train_stage_and_save] at hp
        cases coord with
        | false => simp at hp
        | true =>
          simp at hp
          exact ⟨by rw [hp], by rw [hp]⟩
      | ok u =>
        rw [ht, pointerWrites_append, pointerWrites_append,
          pointerWrites_append, pointerWrites_stage_head,
          pointerWrites_train_stage_and_save] at hp
        have hp2 : p ∈ (if coord then [(r, s)] else [] : List (Nat × Nat)) ∨
            p ∈ pointerWrites (stage_loop dBeh tBeh coord r (s + 1) n).1 := by
          simpa [pointerWrites] using hp
        rcases hp2 with hp2 | hp2
        · cases coord with
          | false => simp at hp2
          | true =>
            simp at hp2
            exact ⟨by rw [hp2], by rw [hp2]⟩
        · rcases ih (s + 1) p hp2 with ⟨h1, h2⟩
          exact ⟨h1, Nat.le_of_succ_le h2⟩

/-- The pointer writes of the stage loop are strictly increasing in
lexicographic `(round, stage)` order. -/
theorem pointerWrites_stage_loop_chain (dBeh : Nat → Nat → Option PyErr)
    (tBeh : Nat → Nat → Nat → Option PyErr) (coord : Bool) (r : Nat) :
    ∀ n s, List.Chain' pointerLt
      (pointerWrites (stage_loop dBeh tBeh coord r s n).1) := by
  intro n
  induction n with
  | zero => intro s; simp [stage_loop, pointerWrites]
  | succ n ih =>
    intro s
    simp only [stage_loop]
    cases hd : dBeh r s with
    | some e =>
      rw [pointerWrites_stage_head]
      cases coord <;> simp
    | none =>
      cases ht : (train_stage_and_save (tBeh r s) s).2 with
      | error e =>
        rw [pointerWrites_append, pointerWrites_stage_head,
          pointerWrites_train_stage_and_save]
        cases coord <;> simp
      | ok u =>
        rw [pointerWrites_append, pointerWrites_append,
          pointerWrites_append, pointerWrites_stage_head,
          pointerWrites_train_stage_and_save]
        cases coord with
        | false => simpa [pointerWrites] using ih (s + 1)
        | true =>
          have hch := ih (s + 1)
          have hgoal : List.Chain' pointerLt
              ((r, s) :: pointerWrites (stage_loop dBeh tBeh true r (s + 1) n).1) := by
            rw [List.chain'_cons']
            refine ⟨?_, hch⟩
            intro y hy
            rcases pointerWrites_stage_loop_mem dBeh tBeh true r n (s + 1) y
              (mem_of_head?_mem hy) with ⟨h1, h2⟩
            exact Or.inr ⟨h1.symm, Nat.lt_of_succ_le h2⟩
          simpa [pointerWrites] using hgoal

/-- `train_stages` writes exactly the pointer values of its stage loop
(the push/cleanup epilogue writes none). -/
theorem pointerWrites_train_stages (numStages : Nat)
    (dBeh : Nat → Nat → Option PyErr)
    (tBeh : Nat → Nat → Nat → Option PyErr)
    (pc pf : Bool) (r start : Nat) (coord : Bool) :
    pointerWrites (train_stages numStages dBeh tBeh pc pf r start coord).1 =
      pointerWrites
        (stage_loop dBeh tBeh coord r start (numStages - start)).1 := by
  unfold train_stages
  cases hb : (stage_loop dBeh tBeh coord r start (numStages - start)).2 with
  | error e => simp [hb]
  | ok u =>
    simp only [hb]
    rw [apply_ite Prod.fst, ite_self]
    rw [pointerWrites_append, pointerWrites_append]
    cases pc with
    | false => simp [pointerWrites]
    | true =>
      by_cases hp2 : pf = true ∨ numStages ≤ start
      · rw [if_pos rfl, if_pos hp2]
        simp [pointerWrites]
      · rw [if_pos rfl, if_neg hp2]
        simp [pointerWrites]

/-- Every pointer write of the coordinator loop entered at round `r`
carries a round at least `r`. -/
theorem pointerWrites_coordinator_loop_mem (numStages maxRounds : Nat)
    (dBeh : Nat → Nat → Option PyErr)
    (tBeh : Nat → Nat → Nat → Option PyErr)
    (pc pf : Bool) (timeOk : Nat → Bool) :
    ∀ fuel r p, p ∈ pointerWrites (coordinator_loop numStages maxRounds
        dBeh tBeh pc pf timeOk r fuel).1 → r ≤ p.1 := by
  intro fuel
  induction fuel with
  | zero => intro r p hp; simp [coordinator_loop, pointerWrites] at hp
  | succ fuel ih =>
    intro r p hp
    simp only [coordinator_loop] at hp
    by_cases hc : r < maxRounds ∧ timeOk r = true
    · rw [if_pos hc] at hp
      cases hb : (train_stages numStages dBeh tBeh pc pf r 0 true).2 with
      | error e =>
        rw [hb] at hp
        simp only [List.append_eq, List.cons_append, List.nil_append, pointerWrites,
          pointerWrites_append, pointerWrites_train_stages] at hp
        exact (pointerWrites_stage_loop_mem dBeh tBeh true r _ 0 p hp).1.ge
      | ok u =>
        rw [hb] at hp
        by_cases hend : r + 1 = maxRounds
        · rw [if_pos hend] at hp
          simp only [List.append_eq, List.cons_append, List.nil_append, pointerWrites,
            pointerWrites_append, pointerWrites_train_stages] at hp
          exact (pointerWrites_stage_loop_mem dBeh tBeh true r _ 0 p hp).1.ge
        · rw [if_neg hend] at hp
          simp only [List.append_eq, List.cons_append, List.nil_append, pointerWrites,
            pointerWrites_append, pointerWrites_train_stages,
            List.mem_append] at hp
          rcases hp with hp | hp
          · exact (pointerWrites_stage_loop_mem dBeh tBeh true r _ 0 p hp).1.ge
          · exact Nat.le_trans (Nat.le_succ r) (ih (r + 1) p hp)
    · rw [if_neg hc] at hp
      simp [pointerWrites] at hp

/-- The pointer writes of the coordinator loop are strictly increasing
in lexicographic `(round, stage)` order. -/
theorem pointerWrites_coordinator_loop_chain (numStages maxRounds : Nat)
    (dBeh : Nat → Nat → Option PyErr)
    (tBeh : Nat → Nat → Nat → Option PyErr)
    (pc pf : Bool) (timeOk : Nat → Bool) :
    ∀ fuel r, List.Chain' pointerLt
      (pointerWrites (coordinator_loop numStages maxRounds
        dBeh tBeh pc pf timeOk r fuel).1) := by
  intro fuel
  induction fuel with
  | zero => intro r; simp [coordinator_loop, pointerWrites]
  | succ fuel ih =>
    intro r
    simp only [coordinator_loop]
    by_cases hc : r < maxRounds ∧ timeOk r = true
    · rw [if_pos hc]
      cases hb : (train_stages numStages dBeh tBeh pc pf r 0 true).2 with
      | error e =>
        simp only [List.append_eq, List.cons_append, List.nil_append, pointerWrites,
          pointerWrites_append, pointerWrites_train_stages]
        exact pointerWrites_stage_loop_chain dBeh tBeh true r _ 0
      | ok u =>
        by_cases hend : r + 1 = maxRounds
        · rw [if_pos hend]
          simp only [List.append_eq, List.cons_append, List.nil_append, pointerWrites,
            pointerWrites_append, pointerWrites_train_stages]
          exact pointerWrites_stage_loop_chain dBeh tBeh true r _ 0
        · rw [if_neg hend]
          simp only [List.append_eq, List.cons_append, List.nil_append, pointerWrites,
            pointerWrites_append, pointerWrites_train_stages]
          refine List.Chain'.append
            (pointerWrites_stage_loop_chain dBeh tBeh true r _ 0)
            (ih (r + 1)) ?_
          intro x hx y hy
          rcases pointerWrites_stage_loop_mem dBeh tBeh true r _ 0 x
            (mem_of_getLast?_mem hx) with ⟨hx1, _⟩
          have hy1 := pointerWrites_coordinator_loop_mem numStages maxRounds
            dBeh tBeh pc pf timeOk fuel (r + 1) y (mem_of_head?_mem hy)
          exact Or.inl (by omega)
    · rw [if_neg hc]
      simp [pointerWrites]

/-- C10 (amended): the successive progress-pointer values written by a
full coordinator run are strictly increasing in lexicographic
`(round, stage)` order — the round component is non-decreasing, and the
stage component is non-decreasing within a round but resets to 0 at
each round boundary. -/
theorem C10_amended_pointer_writes_lex_increasing (numStages maxRounds : Nat)
    (dBeh : Nat → Nat → Option PyErr)
    (tBeh : Nat → Nat → Nat → Option PyErr)
    (pc pf : Bool) (timeOk : Nat → Bool) :
    List.Chain' pointerLt
      (pointerWrites (coordinator_train numStages maxRounds dBeh tBeh
        pc pf timeOk).1) :=
  pointerWrites_coordinator_loop_chain numStages maxRounds dBeh tBeh pc pf
    timeOk (maxRounds + 1) 0

/-- A stage number known after one more event is either already known
or that event is exactly its pointer store. -/
theorem mem_seenInsert {r : Nat} {e : Event} {seen : List Nat} {s : Nat}
    (hs : s ∈ seenInsert r e seen) :
    s ∈ seen ∨ e = Event.storePointer r s := by
  cases e
  case storePointer r2 s2 =>
    simp only [seenInsert] at hs
    by_cases hr2 : r2 = r
    · rw [if_pos hr2] at hs
      rcases List.mem_cons.mp hs with heq | hs
      · exact Or.inr (by rw [hr2, heq])
      · exact Or.inl hs
    · rw [if_neg hr2] at hs
      exact Or.inl hs
  all_goals exact Or.inl hs

/-- Soundness of the scanner: if `ptrScanOk` accepts a trace, then
every round-`r` dataset build and every train attempt for a stage `s`
is preceded in the trace by a store of the `(r, s)` pointer — unless
`s` was already in the initial seen set. -/
theorem ptrScanOk_sound (r : Nat) :
    ∀ (tr : List Event) (seen : List Nat), ptrScanOk r tr seen = true →
    ∀ j s,
      (tr[j]? = some (Event.datasetsFn r s) ∨
       ∃ k, tr[j]? = some (Event.trainAttempt s k)) →
      s ∈ seen ∨ ∃ i : Nat, i < j ∧ tr[i]? = some (Event.storePointer r s) := by
  intro tr
  induction tr with
  | nil =>
    intro seen h j s hj
    rcases hj with hj | ⟨k, hj⟩ <;> simp at hj
  | cons e tl ih =>
    intro seen h j s hj
    rw [ptrScanOk, Bool.and_eq_true] at h
    cases j with
    | zero =>
      left
      rcases hj with hj | ⟨k, hj⟩
      · rw [List.getElem?_cons_zero, Option.some_inj] at hj
        subst hj
        have h1 : decide (r = r → s ∈ seen) = true := h.1
        exact of_decide_eq_true h1 rfl
      · rw [List.getElem?_cons_zero, Option.some_inj] at hj
        subst hj
        exact of_decide_eq_true h.1
    | succ j =>
      have hj2 : tl[j]? = some (Event.datasetsFn r s) ∨
          ∃ k, tl[j]? = some (Event.trainAttempt s k) := by
        rcases hj with hj | ⟨k, hj⟩
        · rw [List.getElem?_cons_succ] at hj; exact Or.inl hj
        · rw [List.getElem?_cons_succ] at hj; exact Or.inr ⟨k, hj⟩
      rcases ih (seenInsert r e seen) h.2 j s hj2 with hs | ⟨i, hi, hptr⟩
      · rcases mem_seenInsert hs with hs | he
        · exact Or.inl hs
        · refine Or.inr ⟨0, Nat.succ_pos j, ?_⟩
          rw [List.getElem?_cons_zero, he]
      · refine Or.inr ⟨i + 1, Nat.succ_lt_succ hi, ?_⟩
        rw [List.getElem?_cons_succ]
        exact hptr

/-- The scanner state and verdict compose over concatenation. -/
theorem ptrScanOk_append (r : Nat) :
    ∀ (a b : List Event) (seen : List Nat),
      ptrScanOk r (a ++ b) seen =
        (ptrScanOk r a seen && ptrScanOk r b (scanSeen r a seen)) := by
  intro a
  induction a with
  | nil => intro b seen; simp [ptrScanOk, scanSeen]
  | cons e tl ih =>
    intro b seen
    simp [ptrScanOk, scanSeen, ih, Bool.and_assoc]

/-- The scanner seen-state composes over concatenation. -/
theorem scanSeen_append (r : Nat) :
    ∀ (a b : List Event) (seen : List Nat),
      scanSeen r (a ++ b) seen = scanSeen r b (scanSeen r a seen) := by
  intro a
  induction a with
  | nil => intro b seen; rfl
  | cons e tl ih => intro b seen; simp [scanSeen, ih]

/-- The retry-loop trace passes the scanner whenever its stage's
pointer is already seen, and adds nothing to the seen set. -/
theorem ptrScanOk_tsas_loop (att : Nat → Option PyErr) (s r : Nat) :
    ∀ n k (seen : List Nat), s ∈ seen →
      ptrScanOk r (tsas_loop att s k n).1 seen = true ∧
      scanSeen r (tsas_loop att s k n).1 seen = seen := by
  intro n
  induction n with
  | zero => intro k seen _; exact ⟨rfl, rfl⟩
  | succ n ih =>
    intro k seen hs
    simp only [tsas_loop]
    cases att k with
    | none =>
      simp [ptrScanOk, ptrOkEvent, scanSeen, seenInsert, hs]
    | some e =>
      cases he : isTransient e
      · simp [he, ptrScanOk, ptrOkEvent, scanSeen, seenInsert, hs]
      · rcases ih (k + 1) seen hs with ⟨ih1, ih2⟩
        simp [he, ptrScanOk_append, ptrScanOk, ptrOkEvent, scanSeen,
          seenInsert, hs, ih1, ih2]

/-- The `train_stage_and_save` trace passes the scanner whenever its
stage's pointer is already seen, and adds nothing to the seen set. -/
theorem ptrScanOk_train_stage_and_save (att : Nat → Option PyErr)
    (s r : Nat) (seen : List Nat) (hs : s ∈ seen) :
    ptrScanOk r (train_stage_and_save att s).1 seen = true ∧
    scanSeen r (train_stage_and_save att s).1 seen = seen := by
  unfold train_stage_and_save
  rcases ptrScanOk_tsas_loop att s r MAX_TRAIN_FAILS 0 seen hs with ⟨h1, h2⟩
  cases h : (tsas_loop att s 0 MAX_TRAIN_FAILS).2 with
  | error e => simp [h, h1, h2]
  | ok b =>
    cases b
    · simp [h, h1, h2]
    · simp [h, ptrScanOk_append, scanSeen_append, ptrScanOk, ptrOkEvent,
        scanSeen, seenInsert, h1, h2]

/-- In coordinator mode the whole stage-loop trace passes the scanner:
each stage's pointer store comes first in its block. -/
theorem ptrScanOk_stage_loop (dBeh : Nat → Nat → Option PyErr)
    (tBeh : Nat → Nat → Nat → Option PyErr) (r : Nat) :
    ∀ n s (seen : List Nat),
      ptrScanOk r (stage_loop dBeh tBeh true r s n).1 seen = true := by
  intro n
  induction n with
  | zero => intro s seen; rfl
  | succ n ih =>
    intro s seen
    simp only [stage_loop]
    cases hd : dBeh r s with
    | some e =>
      simp [ptrScanOk, ptrOkEvent, seenInsert]
    | none =>
      cases ht : (train_stage_and_save (tBeh r s) s).2 with
      | error e =>
        rcases ptrScanOk_train_stage_and_save (tBeh r s) s r
          (s :: (if r = r then seen else seen)) (by simp) with ⟨h1, _⟩
        simp [ptrScanOk_append, ptrScanOk, ptrOkEvent, seenInsert]
        simpa using h1
      | ok u =>
        have hmem : s ∈ s :: seen := List.mem_cons_self s seen
        rcases ptrScanOk_train_stage_and_save (tBeh r s) s r (s :: seen)
          hmem with ⟨h1, h2⟩
        simp [ptrScanOk_append, ptrScanOk, ptrOkEvent, seenInsert, h1, h2,
          ih (s + 1)]

/-- The full coordinator-mode `train_stages` trace passes the scanner. -/
theorem ptrScanOk_train_stages (numStages : Nat)
    (dBeh : Nat → Nat → Option PyErr)
    (tBeh : Nat → Nat → Nat → Option PyErr)
    (pc pf : Bool) (r start : Nat) :
    ptrScanOk r (train_stages numStages dBeh tBeh pc pf r start true).1 []
      = true := by
  unfold train_stages
  have h1 := ptrScanOk_stage_loop dBeh tBeh r (numStages - start) start []
  cases hb : (stage_loop dBeh tBeh true r start (numStages - start)).2 with
  | error e => simp [hb, h1]
  | ok u =>
    simp only [hb]
    rw [apply_ite Prod.fst, ite_self]
    rw [ptrScanOk_append, ptrScanOk_append]
    have hpush : ∀ (seen : List Nat),
        ptrScanOk r (if pc then
          (if pf = true ∨ numStages ≤ start then
            [Event.logInfo, Event.pushToHub, Event.logInfo]
          else [Event.logInfo, Event.pushToHub, Event.sleep 1]) else [])
          seen = true := by
      intro seen
      cases pc with
      | false => rfl
      | true =>
        by_cases hp2 : pf = true ∨ numStages ≤ start
        · rw [if_pos rfl, if_pos hp2]; rfl
        · rw [if_pos rfl, if_neg hp2]; rfl
    simp [h1, hpush, ptrScanOk, ptrOkEvent]

/-- C1: in coordinator mode, every dataset construction and every
training attempt of a stage `s` in the `train_stages(r, start, true)`
trace is strictly preceded by the store of the `(r, s)` progress
pointer. -/
theorem C1_pointer_written_before_stage_work (numStages : Nat)
    (dBeh : Nat → Nat → Option PyErr)
    (tBeh : Nat → Nat → Nat → Option PyErr)
    (pc pf : Bool) (r start : Nat) :
    ∀ j s,
      ((train_stages numStages dBeh tBeh pc pf r start true).1[j]? =
          some (Event.datasetsFn r s) ∨
       ∃ k, (train_stages numStages dBeh tBeh pc pf r start true).1[j]? =
          some (Event.trainAttempt s k)) →
      ∃ i : Nat, i < j ∧
        (train_stages numStages dBeh tBeh pc pf r start true).1[i]? =
          some (Event.storePointer r s) := by
  intro j s hj
  rcases ptrScanOk_sound r
    (train_stages numStages dBeh tBeh pc pf r start true).1 []
    (ptrScanOk_train_stages numStages dBeh tBeh pc pf r start) j s hj with
    hs | hfound
  · simp at hs
  · exact hfound

/-- Witness for `C1_pointer_written_before_stage_work`: in a one-stage
all-success coordinator run the dataset build sits at index 2 and the
pointer store for its stage at index 0. -/
theorem C1_pointer_written_before_stage_work_witness :
    ((train_stages 1 (fun _ _ => none) (fun _ _ _ => none)
        false false 0 0 true).1[2]? = some (Event.datasetsFn 0 0) ∨
     ∃ k, (train_stages 1 (fun _ _ => none) (fun _ _ _ => none)
        false false 0 0 true).1[2]? = some (Event.trainAttempt 0 k)) ∧
    ∃ i : Nat, i < 2 ∧
      (train_stages 1 (fun _ _ => none) (fun _ _ _ => none)
        false false 0 0 true).1[i]? = some (Event.storePointer 0 0) :=
  ⟨Or.inl (by decide),
   C1_pointer_written_before_stage_work 1 (fun _ _ => none)
     (fun _ _ _ => none) false false 0 0 2 0 (Or.inl (by decide))⟩

end RLSwarm
